import Mathlib

/-!
Shallow embedding of `superepicstudios/deno-logger` (the `Logger` class of
`src/logger.ts`, its helper types and `utils/string.utils.ts`), together
with theorems settling the specification claims.

JavaScript conventions embedded explicitly:
  * `undefined` results are `Option`/`none`;
  * thrown exceptions are `Except.error` values (`Thrown`);
  * truthiness tests on strings / optional strings / values mirror JS
    (`""`, `undefined` are falsy; objects, arrays and functions are truthy);
  * machine numbers that may go negative (pad counts) are `Int`.
-/

namespace DenoLogger

/-- The `LogLevel` enum (`log-level.type.ts`): DEBUG=0, INFO=1, WARN=2,
ERROR=3, FATAL=4. -/
inductive LogLevel
  | DEBUG
  | INFO
  | WARN
  | ERROR
  | FATAL
deriving DecidableEq, Repr

/-- Numeric value of a `LogLevel` enum member, as used by the `==`, `>=`,
`<=` comparisons in `canLog`. -/
def LogLevel.rank : LogLevel → Nat
  | .DEBUG => 0
  | .INFO => 1
  | .WARN => 2
  | .ERROR => 3
  | .FATAL => 4

/-- Modelled from the spec: `log-level-operator.type.ts` is not under
`src/`; the spec names exactly three operators (EQUAL, GREATER_OR_EQUAL,
LESS_OR_EQUAL) and says no other values are valid. -/
inductive LogLevelOperator
  | EQUAL
  | GREATER_OR_EQUAL
  | LESS_OR_EQUAL
deriving DecidableEq, Repr

/-- The runtime content of the mutable static field `Logger.levelOperator`.
JavaScript does not enforce enum types at runtime, so the slot can hold a
member of the enum or any other value (`invalid v`). -/
inductive OperatorSlot
  | op (o : LogLevelOperator)
  | invalid (v : Nat)
deriving DecidableEq, Repr

/-- Acyclic JavaScript context values as classified by `formatValue`:
plain objects (`isPlainObject`), arrays (`isArray`), and everything else,
carried with its `String(value)` rendering and its JS truthiness. -/
inductive JSValue
  | obj (pairs : List (String × JSValue))
  | arr (elems : List JSValue)
  | prim (display : String) (truthy : Bool)

/-- JS truthiness of a context value: objects and arrays are truthy. -/
def JSValue.jsTruthy : JSValue → Bool
  | .obj _ => true
  | .arr _ => true
  | .prim _ t => t

/-- JS truthiness of an optional string (`undefined` and `""` are falsy). -/
def jsOptStrTruthy : Option String → Bool
  | none => false
  | some s => s ≠ ""

/-- The Deno environment, restricted to what the logger reads:
the value of the `NO_LOG` environment variable (`none` when unset). -/
structure Env where
  noLog : Option String
deriving DecidableEq, Repr

/-- The mutable static fields of `Logger`: `Logger.level`,
`Logger.levelOperator` and `Logger.alignmentCategories`. -/
structure GlobalState where
  level : LogLevel
  levelOperator : OperatorSlot
  alignmentCategories : Option (List String)
deriving DecidableEq, Repr

/-- Embeds `maxLength` from `utils/string.utils.ts`: `Math.max` over the string
lengths. Both call sites (`symbol`, the alignment block) guard the list
non-empty, so the `Math.max()` = `-Infinity` corner of the empty list is
unreachable; on non-empty lists this fold is exact. -/
def maxLength (strs : List String) : Nat :=
  (strs.map String.length).foldr max 0

/-- Embeds `minLengthOrApplyTrailingPad` from `utils/string.utils.ts`: pads `str`
with trailing spaces up to `length`; returns it unchanged when already at
least that long. -/
def minLengthOrApplyTrailingPad (str : String) (length : Nat) : String :=
  if str.length ≥ length then str
  else str ++ String.mk (List.replicate (length - str.length) ' ')

/-- A JavaScript exception: `new Error(msg)` carries a message; `repeat`
with a negative count raises a `RangeError`. -/
inductive Thrown
  | err (msg : String)
  | rangeError
deriving DecidableEq, Repr

/-- Embeds `" ".repeat(count)` where `count` is a JS number: negative counts raise
a `RangeError`. -/
def strRepeat (s : String) (count : Int) : Except Thrown String :=
  if count < 0 then .error .rangeError
  else .ok (String.join (List.replicate count.toNat s))

/-- ANSI wrapper applied by `@std/fmt/colors` (external library): wraps the
text in the open/close escape codes. -/
def ansi (openCode closeCode : Nat) (s : String) : String :=
  "\x1b[" ++ toString openCode ++ "m" ++ s ++ "\x1b[" ++ toString closeCode ++ "m"

def cyan (s : String) : String := ansi 36 39 s

def blue (s : String) : String := ansi 34 39 s

def yellow (s : String) : String := ansi 33 39 s

def red (s : String) : String := ansi 31 39 s

def white (s : String) : String := ansi 37 39 s

def gray (s : String) : String := ansi 90 39 s

/-- Embeds `TimestampFormat`: members are pattern strings; `NONE` is the sentinel
`"_none"` (`timestamp-format.type.ts`). -/
def TimestampFormat.NONE : String := "_none"

/-- Embeds `TimestampFormat.CONDENSED_12`, the default timestamp format. -/
def TimestampFormat.CONDENSED_12 : String := "dd/MM/yyyy @ hh:mm:ss aa zzzz"

/-- Logger options after the constructor merges `LoggerOptionDefaults`
with the caller's options (`logger-options.type.ts`). -/
structure ResolvedOptions where
  timestampFormat : String
  messageDelimiter : Option String
  compactContext : Bool
deriving DecidableEq, Repr

/-- Embeds `LoggerOptionDefaults`: timestampFormat CONDENSED_12, messageDelimiter
`"::"`, compactContext `false`. -/
def LoggerOptionDefaults : ResolvedOptions :=
  { timestampFormat := TimestampFormat.CONDENSED_12
    messageDelimiter := some "::"
    compactContext := false }

/-- Modelled from the spec: `utils/date.utils.ts` is not under `src/`.
The spec treats timestamp rendering as a total pattern-based formatter
whose exact output no claim constrains; dates are abstracted to a `Nat`
timestamp and rendered with the pattern. -/
def DateUtils.format (date : Nat) (pattern : String) : String :=
  pattern ++ "#" ++ toString date

namespace Logger

/-- Embeds `propertyIndent` of the indented branches: `" ".repeat(indent * depth)`
with `indent = 2`. The count is a product of non-negatives, so this
`repeat` cannot raise. -/
def propertyIndent (depth : Nat) : String :=
  String.mk (List.replicate (2 * depth) ' ')

/-- Embeds `bracketIndent` of the indented branches:
`propertyIndent.substring(0, propertyIndent.length - indent)`; JS
`substring` clamps a negative end index to 0, matching `Nat` subtraction. -/
def bracketIndent (depth : Nat) : String :=
  String.mk (List.replicate (2 * depth - 2) ' ')

mutual

/-- Embeds `Logger.formatValue`: plain objects go to `formatObjectValue`, arrays
to `formatArrayValue`, everything else to `String(value)`. -/
def formatValue (value : JSValue) (compact : Bool) (depth : Nat) : String :=
  match value with
  | .obj pairs => formatObjectValue pairs compact depth
  | .arr elems => formatArrayValue elems compact depth
  | .prim display _ => display

/-- Embeds `Logger.formatObjectValue`: compact mode appends
`" ${key}: ${value}${isLast ? "" : ","}"` per pair between `"{"` and
`" }"`; indented mode puts each pair on its own line between `"{\n"` and
the bracket indent + `"}"`. -/
def formatObjectValue (pairs : List (String × JSValue)) (compact : Bool) (depth : Nat) : String :=
  if compact then
    "\x7b" ++ objPairsCompact pairs depth ++ " \x7d"
  else
    "\x7b\n" ++ objPairsIndented pairs depth
      ++ bracketIndent depth ++ "\x7d"

/-- The compact-branch loop body of `formatObjectValue` (`compact` is
`true` there, so recursive calls pass `true`). -/
def objPairsCompact (pairs : List (String × JSValue)) (depth : Nat) : String :=
  match pairs with
  | [] => ""
  | (key, v) :: rest =>
    " " ++ key ++ ": " ++ formatValue v true (depth + 1)
      ++ (if rest.isEmpty then "" else ",") ++ objPairsCompact rest depth

/-- The indented-branch loop body of `formatObjectValue` (`compact` is
`false` there): `${propertyIndent}${key}: ${value}${isLast ? "" : ","}\n`
per pair. -/
def objPairsIndented (pairs : List (String × JSValue)) (depth : Nat) : String :=
  match pairs with
  | [] => ""
  | (key, v) :: rest =>
    propertyIndent depth ++ key ++ ": " ++ formatValue v false (depth + 1)
      ++ (if rest.isEmpty then "" else ",") ++ "\n" ++ objPairsIndented rest depth

/-- Embeds `Logger.formatArrayValue`: compact mode joins elements with `", "`
between `"["` and `"]"`; indented mode puts each element on its own line. -/
def formatArrayValue (elems : List JSValue) (compact : Bool) (depth : Nat) : String :=
  if compact then
    "[" ++ arrElemsCompact elems depth ++ "]"
  else
    "[\n" ++ arrElemsIndented elems depth
      ++ bracketIndent depth ++ "]"

/-- The compact-branch loop body of `formatArrayValue`:
`${value}${isLast ? "" : ", "}` per element. -/
def arrElemsCompact (elems : List JSValue) (depth : Nat) : String :=
  match elems with
  | [] => ""
  | v :: rest =>
    formatValue v true (depth + 1)
      ++ (if rest.isEmpty then "" else ", ") ++ arrElemsCompact rest depth

/-- The indented-branch loop body of `formatArrayValue`:
`${propertyIndent}${value}${isLast ? "" : ","}\n` per element. -/
def arrElemsIndented (elems : List JSValue) (depth : Nat) : String :=
  match elems with
  | [] => ""
  | v :: rest =>
    propertyIndent depth ++ formatValue v false (depth + 1)
      ++ (if rest.isEmpty then "" else ",") ++ "\n" ++ arrElemsIndented rest depth

end

/-- The `symbols` array of `Logger.symbol`. -/
def symbols : List String :=
  ["[DEBUG]", "[INFO]", "[WARN]", "[ERROR]", "[FATAL]"]

/-- Embeds `Logger.colorizer`: the per-level color function. -/
def colorizer : LogLevel → (String → String)
  | .DEBUG => cyan
  | .INFO => blue
  | .WARN => yellow
  | .ERROR => red
  | .FATAL => red

/-- Embeds `Logger.symbol`: the level's bracketed tag, right-padded to the longest
tag and colorized. -/
def symbol (level : LogLevel) : String :=
  colorizer level
    (minLengthOrApplyTrailingPad (symbols.getD level.rank "") (maxLength symbols))

/-- JS truthiness of the optional `ctx` argument (`if (ctx)`). -/
def jsOptTruthy : Option JSValue → Bool
  | none => false
  | some v => v.jsTruthy

/-- The alignment block of `Logger.formatMessage`: when
`(Logger.alignmentCategories?.length ?? 0) > 0`, computes
`count = category ? max - len : max - len + 3` and appends
`" ".repeat(count)` — which raises `RangeError` when `count` is negative;
outside the guard nothing is appended (embedded as the empty pad). -/
def alignmentPad (st : GlobalState) (category : Option String) :
    Except Thrown String :=
  if (st.alignmentCategories.getD []).length > 0 then
    let categoryLength : Nat := (category.map String.length).getD 0
    let maxCategoryLength : Nat := maxLength (st.alignmentCategories.getD [])
    let count : Int :=
      if jsOptStrTruthy category then
        (maxCategoryLength : Int) - (categoryLength : Int)
      else
        (maxCategoryLength : Int) - (categoryLength : Int) + 3
    strRepeat " " count
  else pure ""

/-- Embeds `Logger.formatMessage`: timestamp (unless `NONE`), category tag,
alignment padding (may raise `RangeError` on a negative repeat count),
delimited colorized message, then the optional gray context.
`compactContext ?? LoggerOptionDefaults.compactContext` collapses to the
merged option, which the constructor always populates. -/
def formatMessage (st : GlobalState) (opts : ResolvedOptions) (level : LogLevel)
    (message : String) (date : Nat) (category : Option String)
    (ctx : Option JSValue) : Except Thrown String :=
  let result :=
    if opts.timestampFormat ≠ TimestampFormat.NONE then
      symbol level ++ " " ++ white (DateUtils.format date opts.timestampFormat)
    else
      symbol level
  let result :=
    if jsOptStrTruthy category then
      result ++ " " ++ yellow ("[" ++ category.getD "" ++ "]")
    else result
  match alignmentPad st category with
  | .error e => .error e
  | .ok pad =>
    let result := result ++ pad
    let result :=
      if jsOptStrTruthy opts.messageDelimiter then
        result ++ " " ++ opts.messageDelimiter.getD "" ++ " " ++ colorizer level message
      else
        result ++ " " ++ colorizer level message
    let result :=
      if jsOptTruthy ctx then
        let formattedCtx := formatValue (ctx.getD (.prim "" false)) opts.compactContext 1
        if jsOptStrTruthy opts.messageDelimiter then
          result ++ " " ++ opts.messageDelimiter.getD "" ++ " " ++ gray formattedCtx
        else
          result ++ " " ++ gray formattedCtx
      else result
    .ok result

end Logger

/-- The `LogMessage` record built by `Logger.message`
(`log-message.type.ts`), with dates abstracted to `Nat`. -/
structure LogMessage where
  message : String
  formatted : String
  level : LogLevel
  date : Nat
  category : Option String
  ctx : Option JSValue

/-- The console sink a line is written to. -/
inductive Sink
  | debug
  | info
  | warn
  | error
deriving DecidableEq, Repr

/-- How a logging call ends: a JS return value (`some` record or
`undefined`) or a propagating exception. -/
inductive LogResult
  | returned (m : Option LogMessage)
  | threw (e : Thrown)

/-- The observable effect of a logging call: the console writes in order,
and how the call ended. -/
structure Outcome where
  writes : List (Sink × String)
  result : LogResult

namespace Logger

/-- Embeds `Logger.isDenoLoggingEnabled()`: false iff the `NO_LOG` environment
variable holds a truthy (non-empty) value. -/
def isDenoLoggingEnabled (env : Env) : Bool :=
  if jsOptStrTruthy env.noLog then false else true

/-- The guard in `canLog` reads `!Logger.isDenoLoggingEnabled` — the method
is referenced, not invoked. A function object is always truthy in JS, so
this constant embeds the truthiness of that reference. -/
def isDenoLoggingEnabledRefTruthy : Bool := true

/-- Embeds `Logger.canLog`: the filter gate. The first guard tests the un-invoked
method reference (see `isDenoLoggingEnabledRefTruthy`) and the instance
`isEnabled` flag; then the operator switch, which has no default: a slot
value outside the enum falls off the end and returns `undefined` (`none`). -/
def canLog (env : Env) (st : GlobalState) (isEnabled : Bool)
    (level : LogLevel) : Option Bool :=
  if !isDenoLoggingEnabledRefTruthy || !isEnabled then some false
  else
    match st.levelOperator with
    | .op .EQUAL => some (level.rank == st.level.rank)
    | .op .GREATER_OR_EQUAL => some (decide (level.rank ≥ st.level.rank))
    | .op .LESS_OR_EQUAL => some (decide (level.rank ≤ st.level.rank))
    | .invalid _ => none

/-- Embeds `Logger._log`: returns `undefined` when `!this.canLog(message.level)`
(JS `!` sends both `false` and `undefined` to `true`), else writes the
formatted line to the level's sink; ERROR throws `new Error(message.message)`
after the write when `throwOnError`, FATAL always throws after the write. -/
def _log (env : Env) (st : GlobalState) (isEnabled : Bool) (m : LogMessage)
    (throwOnError : Bool) : Outcome :=
  match canLog env st isEnabled m.level with
  | some true =>
    match m.level with
    | .DEBUG => ⟨[(.debug, m.formatted)], .returned (some m)⟩
    | .INFO => ⟨[(.info, m.formatted)], .returned (some m)⟩
    | .WARN => ⟨[(.warn, m.formatted)], .returned (some m)⟩
    | .ERROR =>
      if throwOnError then ⟨[(.error, m.formatted)], .threw (.err m.message)⟩
      else ⟨[(.error, m.formatted)], .returned (some m)⟩
    | .FATAL => ⟨[(.error, m.formatted)], .threw (.err m.message)⟩
  | _ => ⟨[], .returned none⟩

/-- Embeds `Logger.logMessage`: delegates to `_log`. -/
def logMessage (env : Env) (st : GlobalState) (isEnabled : Bool)
    (m : LogMessage) (throwOnError : Bool) : Outcome :=
  _log env st isEnabled m throwOnError

/-- Embeds `Logger.message`: builds the (unlogged) record, formatting the message
first; a formatting exception propagates. -/
def message (st : GlobalState) (category : Option String)
    (opts : ResolvedOptions) (msg : String) (level : LogLevel)
    (ctx : Option JSValue) (date : Nat) : Except Thrown LogMessage :=
  match formatMessage st opts level msg date category ctx with
  | .error e => .error e
  | .ok formatted => .ok { message := msg, formatted, level, date, category, ctx }

/-- Embeds `Logger.log`: builds the record via `message` (before any gate check),
then hands it to `logMessage`; an exception from formatting propagates
before anything is written. -/
def log (env : Env) (st : GlobalState) (isEnabled : Bool)
    (category : Option String) (opts : ResolvedOptions) (msg : String)
    (level : LogLevel) (throwOnError : Bool) (ctx : Option JSValue)
    (date : Nat) : Outcome :=
  match message st category opts msg level ctx date with
  | .error e => ⟨[], .threw e⟩
  | .ok m => logMessage env st isEnabled m throwOnError

/-- Embeds `Logger.debug`: `log` at DEBUG with `throwOnError = false`. -/
def debug (env : Env) (st : GlobalState) (isEnabled : Bool)
    (category : Option String) (opts : ResolvedOptions) (msg : String)
    (ctx : Option JSValue) (date : Nat) : Outcome :=
  log env st isEnabled category opts msg .DEBUG false ctx date

/-- Embeds `Logger.info`: `log` at INFO with `throwOnError = false`. -/
def info (env : Env) (st : GlobalState) (isEnabled : Bool)
    (category : Option String) (opts : ResolvedOptions) (msg : String)
    (ctx : Option JSValue) (date : Nat) : Outcome :=
  log env st isEnabled category opts msg .INFO false ctx date

/-- Embeds `Logger.warn`: `log` at WARN with `throwOnError = false`. -/
def warn (env : Env) (st : GlobalState) (isEnabled : Bool)
    (category : Option String) (opts : ResolvedOptions) (msg : String)
    (ctx : Option JSValue) (date : Nat) : Outcome :=
  log env st isEnabled category opts msg .WARN false ctx date

/-- Embeds `Logger.error`: `log` at ERROR with the caller's `throws` flag. -/
def error (env : Env) (st : GlobalState) (isEnabled : Bool)
    (category : Option String) (opts : ResolvedOptions) (msg : String)
    (throws : Bool) (ctx : Option JSValue) (date : Nat) : Outcome :=
  log env st isEnabled category opts msg .ERROR throws ctx date

/-- Embeds `Logger.fatal`: `log` at FATAL with `throwOnError = true`; the return
value of `log` is discarded (the method returns `undefined`), while an
exception propagates. -/
def fatal (env : Env) (st : GlobalState) (isEnabled : Bool)
    (category : Option String) (opts : ResolvedOptions) (msg : String)
    (ctx : Option JSValue) (date : Nat) : Outcome :=
  let o := log env st isEnabled category opts msg .FATAL true ctx date
  { writes := o.writes
    result :=
      match o.result with
      | .threw e => .threw e
      | .returned _ => .returned none }

end Logger

/-! ## Shared concrete inputs and specification-side vocabulary -/

/-- The default global state: `Logger.level = DEBUG`,
`Logger.levelOperator = GREATER_OR_EQUAL`, no alignment categories. -/
def defaultState : GlobalState :=
  ⟨.DEBUG, .op .GREATER_OR_EQUAL, none⟩

/-- A concrete `LogMessage` at the given level, for closed instantiations. -/
def mkMsg (msg line : String) (level : LogLevel) : LogMessage :=
  ⟨msg, line, level, 0, none, none⟩

/-- The record `Logger.message` builds for `"x"` at FATAL on the default
state, default options, no category, no context, date 0. -/
def fatalWitnessRecord : LogMessage :=
  ⟨"x",
    "\x1b[31m[FATAL]\x1b[39m \x1b[37mdd/MM/yyyy @ hh:mm:ss aa zzzz#0\x1b[39m :: \x1b[31mx\x1b[39m",
    .FATAL, 0, none, none⟩

/-- The record `Logger.message` builds for `"x"` at ERROR on the default
state, default options, no category, no context, date 0. -/
def errorWitnessRecord : LogMessage :=
  ⟨"x",
    "\x1b[31m[ERROR]\x1b[39m \x1b[37mdd/MM/yyyy @ hh:mm:ss aa zzzz#0\x1b[39m :: \x1b[31mx\x1b[39m",
    .ERROR, 0, none, none⟩

/-- Specification-side: join strings with `sep` between consecutive
elements. -/
def sepBy (sep : String) : List String → String
  | [] => ""
  | [s] => s
  | s :: rest => s ++ sep ++ sepBy sep rest

/-- Specification-side: one entry per line, each prefixed by `pre` and
ended by a newline, with a comma on every entry but the last. -/
def indentEntries (pre : String) : List String → String
  | [] => ""
  | [s] => pre ++ s ++ "\n"
  | s :: rest => pre ++ s ++ ",\n" ++ indentEntries pre rest

/-- Specification-side: a run of `n` spaces. -/
def spaces (n : Nat) : String :=
  String.mk (List.replicate n ' ')

/-- A falsy optional category (`undefined` or `""`) has length 0. -/
theorem falsy_category_len {cat : Option String}
    (h : jsOptStrTruthy cat = false) : (cat.map String.length).getD 0 = 0 := by
  cases cat with
  | none => rfl
  | some s =>
    simp [jsOptStrTruthy] at h
    simp [h]

/-- Two adjacent literal appends can be merged. -/
theorem append_lit_merge {a b c : String} (s : String) (h : a ++ b = c) :
    a ++ (b ++ s) = c ++ s := by
  rw [← String.append_assoc, h]

/-- Merging a comma with a following space. -/
theorem comma_space_merge (s : String) : "," ++ (" " ++ s) = ", " ++ s :=
  append_lit_merge s rfl

/-- Merging a comma with a following newline. -/
theorem comma_newline_merge (s : String) : "," ++ ("\n" ++ s) = ",\n" ++ s :=
  append_lit_merge s rfl

/-- Merging an opening brace with a following space. -/
theorem brace_space_merge (s : String) : "\x7b" ++ (" " ++ s) = "\x7b " ++ s :=
  append_lit_merge s rfl

/-- The compact object loop produces the pairs joined by `", "`, with one
leading space, whenever there is at least one pair. -/
theorem objPairsCompact_eq_sepBy (d : Nat) :
    ∀ pairs : List (String × JSValue), pairs ≠ [] →
      Logger.objPairsCompact pairs d =
        " " ++ sepBy ", "
          (pairs.map fun p => p.1 ++ ": " ++ Logger.formatValue p.2 true (d + 1))
  | [(k, v)], _ => by
    simp [Logger.objPairsCompact, sepBy, String.append_assoc]
  | (k, v) :: q :: rest, _ => by
    have ih := objPairsCompact_eq_sepBy d (q :: rest) (by simp)
    simp [Logger.objPairsCompact, sepBy, ih, String.append_assoc, comma_space_merge]

/-- The compact array loop produces the elements joined by `", "`. -/
theorem arrElemsCompact_eq_sepBy (d : Nat) :
    ∀ elems : List JSValue,
      Logger.arrElemsCompact elems d =
        sepBy ", " (elems.map fun v => Logger.formatValue v true (d + 1))
  | [] => by simp [Logger.arrElemsCompact, sepBy]
  | [v] => by simp [Logger.arrElemsCompact, sepBy]
  | v :: q :: rest => by
    have ih := arrElemsCompact_eq_sepBy d (q :: rest)
    simp [Logger.arrElemsCompact, sepBy, ih, String.append_assoc]

/-- The indented object loop produces one line per pair, prefixed by the
property indent, with a comma on every line but the last. -/
theorem objPairsIndented_eq_indentEntries (d : Nat) :
    ∀ pairs : List (String × JSValue),
      Logger.objPairsIndented pairs d =
        indentEntries (Logger.propertyIndent d)
          (pairs.map fun p => p.1 ++ ": " ++ Logger.formatValue p.2 false (d + 1))
  | [] => by simp [Logger.objPairsIndented, indentEntries]
  | [(k, v)] => by
    simp [Logger.objPairsIndented, indentEntries, String.append_assoc]
  | (k, v) :: q :: rest => by
    have ih := objPairsIndented_eq_indentEntries d (q :: rest)
    simp [Logger.objPairsIndented, indentEntries, ih, String.append_assoc,
      comma_newline_merge]

/-! ## Claims -/

/-- C7: in compact mode, a keyed mapping renders as `"\x7b k1: v1, k2: v2 \x7d"`
(space after the opening brace, `key: value` pairs joined by comma+space,
no trailing comma, space before the closing brace), an ordered sequence
joins its elements with `", "` inside square brackets, and
`serialize(\x7ba:1,b:[1,2]\x7d, compact=true)` is `"\x7b a: 1, b: [1, 2] \x7d"`. -/
theorem compact_serialization_spec (pairs : List (String × JSValue))
    (elems : List JSValue) (d : Nat) (h : pairs ≠ []) :
    Logger.formatObjectValue pairs true d =
      "\x7b " ++ sepBy ", "
        (pairs.map fun p => p.1 ++ ": " ++ Logger.formatValue p.2 true (d + 1))
      ++ " \x7d" ∧
    Logger.formatArrayValue elems true d =
      "[" ++ sepBy ", " (elems.map fun v => Logger.formatValue v true (d + 1)) ++ "]" ∧
    Logger.formatValue
      (.obj [("a", .prim "1" true), ("b", .arr [.prim "1" true, .prim "2" true])])
      true 1 = "\x7b a: 1, b: [1, 2] \x7d" := by
  refine ⟨?_, ?_, ?_⟩
  · simp [Logger.formatObjectValue, objPairsCompact_eq_sepBy d pairs h,
      String.append_assoc, brace_space_merge]
  · simp [Logger.formatArrayValue, arrElemsCompact_eq_sepBy d elems,
      String.append_assoc]
  · simp [Logger.formatValue, Logger.formatObjectValue, Logger.objPairsCompact,
      Logger.formatArrayValue, Logger.arrElemsCompact]

/-- C7 witness: the compact shape at a concrete one-pair mapping. -/
theorem compact_serialization_spec_witness :
    Logger.formatValue
      (.obj [("a", .prim "1" true), ("b", .arr [.prim "1" true, .prim "2" true])])
      true 1 = "\x7b a: 1, b: [1, 2] \x7d" :=
  (compact_serialization_spec [("a", .prim "1" true)] [] 1
    (List.cons_ne_nil _ _)).2.2

/-- C8: in indented mode at depth `d`, a keyed mapping opens with a brace
and newline, puts each `key: value` entry (nested values at depth `d + 1`)
on its own line prefixed by `d * 2` spaces with a comma on all but the
last, and closes with `(d - 1) * 2` spaces and a brace; in particular
`\x7bx: 1\x7d` at depth 1 renders as `"\x7b\n  x: 1\n\x7d"`. -/
theorem indented_serialization_spec (pairs : List (String × JSValue))
    (d : Nat) (h : 1 ≤ d) :
    Logger.formatObjectValue pairs false d =
      "\x7b\n" ++ indentEntries (spaces (d * 2))
        (pairs.map fun p => p.1 ++ ": " ++ Logger.formatValue p.2 false (d + 1))
      ++ (spaces ((d - 1) * 2) ++ "\x7d") ∧
    Logger.formatValue (.obj [("x", .prim "1" true)]) false 1 =
      "\x7b\n  x: 1\n\x7d" := by
  constructor
  · have hprop : Logger.propertyIndent d = spaces (d * 2) := by
      simp [Logger.propertyIndent, spaces, Nat.mul_comm]
    have hn : 2 * d - 2 = (d - 1) * 2 := by omega
    have hbr : Logger.bracketIndent d = spaces ((d - 1) * 2) := by
      simp [Logger.bracketIndent, spaces, hn]
    simp [Logger.formatObjectValue, objPairsIndented_eq_indentEntries d pairs,
      hprop, hbr, String.append_assoc]
  · simp [Logger.formatValue, Logger.formatObjectValue, Logger.objPairsIndented,
      Logger.propertyIndent, Logger.bracketIndent]

/-- C8 witness: the indented shape at depth 1 on `\x7bx: 1\x7d`. -/
theorem indented_serialization_spec_witness :
    Logger.formatValue (.obj [("x", .prim "1" true)]) false 1 =
      "\x7b\n  x: 1\n\x7d" :=
  (indented_serialization_spec [] 1 (by decide)).2

/-- C1: with the instance enabled and the environment kill switch
reporting logging enabled, the filter gate accepts severity `S` iff
`rank S ≥ rank T` under GREATER_OR_EQUAL, iff `rank S = rank T` under
EQUAL, and iff `rank S ≤ rank T` under LESS_OR_EQUAL, where `T` is the
global threshold. -/
theorem canLog_operator_spec (env : Env) (st : GlobalState) (S : LogLevel)
    (henv : Logger.isDenoLoggingEnabled env = true) :
    (st.levelOperator = .op .GREATER_OR_EQUAL →
      (Logger.canLog env st true S = some true ↔ S.rank ≥ st.level.rank)) ∧
    (st.levelOperator = .op .EQUAL →
      (Logger.canLog env st true S = some true ↔ S.rank = st.level.rank)) ∧
    (st.levelOperator = .op .LESS_OR_EQUAL →
      (Logger.canLog env st true S = some true ↔ S.rank ≤ st.level.rank)) := by
  refine ⟨?_, ?_, ?_⟩ <;> intro hop <;>
    simp [Logger.canLog, Logger.isDenoLoggingEnabledRefTruthy, hop]

/-- C1 witness: with `NO_LOG` unset, threshold WARN and operator
GREATER_OR_EQUAL, the gate accepts ERROR. -/
theorem canLog_operator_spec_witness :
    Logger.isDenoLoggingEnabled ⟨none⟩ = true ∧
    (Logger.canLog ⟨none⟩ ⟨.WARN, .op .GREATER_OR_EQUAL, none⟩ true .ERROR =
        some true ↔
      LogLevel.rank .ERROR ≥ LogLevel.rank .WARN) :=
  ⟨rfl, (canLog_operator_spec ⟨none⟩ ⟨.WARN, .op .GREATER_OR_EQUAL, none⟩
    .ERROR rfl).1 rfl⟩

/-- C4: the kill switch is dead code. `isDenoLoggingEnabled` reports
`false` with `NO_LOG = "1"`, yet `canLog` tests the un-invoked method
reference (always truthy), so a DEBUG call on an enabled default-state
logger still writes to the debug sink and returns the record, and the
public `debug` entry point still produces a write. -/
theorem noLog_killSwitch_dead :
    Logger.isDenoLoggingEnabled ⟨some "1"⟩ = false ∧
    Logger._log ⟨some "1"⟩ defaultState true (mkMsg "x" "line" .DEBUG) false =
      ⟨[(.debug, "line")], .returned (some (mkMsg "x" "line" .DEBUG))⟩ ∧
    (Logger.debug ⟨some "1"⟩ defaultState true none LoggerOptionDefaults
        "x" none 0).writes.length = 1 :=
  ⟨rfl, rfl, rfl⟩

/-- C5: a call whose severity the filter gate does not accept returns
`undefined`, writes to no sink and raises no error. -/
theorem filtered_call_silent (env : Env) (st : GlobalState) (isEnabled : Bool)
    (m : LogMessage) (t : Bool)
    (h : Logger.canLog env st isEnabled m.level ≠ some true) :
    Logger._log env st isEnabled m t = ⟨[], .returned none⟩ := by
  unfold Logger._log
  cases hc : Logger.canLog env st isEnabled m.level with
  | none => rfl
  | some b =>
    cases b with
    | true => exact absurd hc h
    | false => rfl

/-- C5 witness: under operator EQUAL with threshold DEBUG, an ERROR-level
message is rejected and the call is silent. -/
theorem filtered_call_silent_witness :
    Logger.canLog ⟨none⟩ ⟨.DEBUG, .op .EQUAL, none⟩ true
        (mkMsg "x" "line" .ERROR).level ≠ some true ∧
    Logger._log ⟨none⟩ ⟨.DEBUG, .op .EQUAL, none⟩ true
        (mkMsg "x" "line" .ERROR) true = ⟨[], .returned none⟩ :=
  ⟨by decide,
    filtered_call_silent ⟨none⟩ ⟨.DEBUG, .op .EQUAL, none⟩ true
      (mkMsg "x" "line" .ERROR) true (by decide)⟩

/-- C6 counterexample: with the operator slot holding a value outside the
enum, the gate neither raises nor fails fast — `canLog` returns
`undefined` and the call is silently suppressed, contradicting the claim
that an invalid operator fails loudly. -/
theorem invalid_operator_counterexample :
    Logger.canLog ⟨none⟩ ⟨.DEBUG, .invalid 7, none⟩ true .ERROR = none ∧
    Logger._log ⟨none⟩ ⟨.DEBUG, .invalid 7, none⟩ true
      (mkMsg "x" "line" .ERROR) true = ⟨[], .returned none⟩ :=
  ⟨rfl, rfl⟩

/-- C6 amended: an operator slot outside the enum makes `canLog` fall off
the switch and return `undefined`, which the gate treats as rejection:
the call returns `undefined`, writes nothing and raises nothing — silent
suppression rather than a fail-fast programming error. -/
theorem invalid_operator_silent (env : Env) (st : GlobalState)
    (isEnabled : Bool) (m : LogMessage) (t : Bool) (v : Nat)
    (hop : st.levelOperator = .invalid v) :
    (isEnabled = true → Logger.canLog env st isEnabled m.level = none) ∧
    Logger._log env st isEnabled m t = ⟨[], .returned none⟩ := by
  constructor
  · intro hen
    simp [Logger.canLog, Logger.isDenoLoggingEnabledRefTruthy, hop, hen]
  · unfold Logger._log
    cases isEnabled <;>
      simp [Logger.canLog, Logger.isDenoLoggingEnabledRefTruthy, hop]

/-- C6 amended witness: invalid slot value 7 at a concrete call. -/
theorem invalid_operator_silent_witness :
    (true = true →
      Logger.canLog ⟨none⟩ ⟨.DEBUG, .invalid 7, none⟩ true
        (mkMsg "x" "line" .FATAL).level = none) ∧
    Logger._log ⟨none⟩ ⟨.DEBUG, .invalid 7, none⟩ true
      (mkMsg "x" "line" .FATAL) false = ⟨[], .returned none⟩ :=
  invalid_operator_silent ⟨none⟩ ⟨.DEBUG, .invalid 7, none⟩ true
    (mkMsg "x" "line" .FATAL) false 7 rfl

/-- C2 counterexample: with operator EQUAL and threshold DEBUG (a gate
that rejects FATAL) on an enabled logger, `fatal("x")` writes nothing and
raises nothing — it returns silently — contradicting the claim that fatal
always writes and always raises even when the gate rejects FATAL. -/
theorem fatal_gate_reject_counterexample :
    Logger.fatal ⟨none⟩ ⟨.DEBUG, .op .EQUAL, none⟩ true none
      LoggerOptionDefaults "x" none 0 = ⟨[], .returned none⟩ :=
  rfl

/-- C2 amended: when the filter gate accepts FATAL, `fatal(message, ctx)`
writes the rendered line to the error sink and then raises an error
carrying the raw message text (the write precedes the raise); when the
gate rejects FATAL, `fatal` neither writes nor raises and returns
silently. -/
theorem fatal_spec (env : Env) (st : GlobalState) (isEnabled : Bool)
    (cat : Option String) (opts : ResolvedOptions) (msg : String)
    (ctx : Option JSValue) (date : Nat) (m : LogMessage)
    (hfmt : Logger.message st cat opts msg .FATAL ctx date = .ok m) :
    m.message = msg ∧
    (Logger.canLog env st isEnabled .FATAL = some true →
      Logger.fatal env st isEnabled cat opts msg ctx date =
        ⟨[(.error, m.formatted)], .threw (.err msg)⟩) ∧
    (Logger.canLog env st isEnabled .FATAL = some false →
      Logger.fatal env st isEnabled cat opts msg ctx date =
        ⟨[], .returned none⟩) := by
  cases hf : Logger.formatMessage st opts .FATAL msg date cat ctx with
  | error e => simp [Logger.message, hf] at hfmt
  | ok f =>
    simp only [Logger.message, hf, Except.ok.injEq] at hfmt
    refine ⟨?_, ?_, ?_⟩
    · rw [← hfmt]
    · intro hgate
      simp [Logger.fatal, Logger.log, Logger.message, hf, Logger.logMessage,
        Logger._log, ← hfmt, hgate]
    · intro hgate
      simp [Logger.fatal, Logger.log, Logger.message, hf, Logger.logMessage,
        Logger._log, ← hfmt, hgate]

/-- C2 amended witness: on the default state the gate accepts FATAL;
`fatal("x")` writes the rendered line to the error sink and throws the
raw message. -/
theorem fatal_spec_witness :
    Logger.message defaultState none LoggerOptionDefaults "x" .FATAL none 0 =
      .ok (fatalWitnessRecord) ∧
    Logger.fatal ⟨none⟩ defaultState true none LoggerOptionDefaults "x" none 0 =
      ⟨[(.error, fatalWitnessRecord.formatted)], .threw (.err "x")⟩ :=
  ⟨rfl,
    (fatal_spec ⟨none⟩ defaultState true none LoggerOptionDefaults "x" none 0
      fatalWitnessRecord rfl).2.1 rfl⟩

/-- C3: when the gate accepts ERROR, `error(message, throwOnLog = false)`
writes the rendered line to the error sink and returns the record without
raising, while `error(message, throwOnLog = true)` writes the rendered
line to the error sink and then raises an error whose payload is the raw
message text. -/
theorem error_throw_flag_spec (env : Env) (st : GlobalState)
    (isEnabled : Bool) (cat : Option String) (opts : ResolvedOptions)
    (msg : String) (ctx : Option JSValue) (date : Nat) (m : LogMessage)
    (hfmt : Logger.message st cat opts msg .ERROR ctx date = .ok m)
    (hgate : Logger.canLog env st isEnabled .ERROR = some true) :
    m.message = msg ∧
    Logger.error env st isEnabled cat opts msg false ctx date =
      ⟨[(.error, m.formatted)], .returned (some m)⟩ ∧
    Logger.error env st isEnabled cat opts msg true ctx date =
      ⟨[(.error, m.formatted)], .threw (.err msg)⟩ := by
  cases hf : Logger.formatMessage st opts .ERROR msg date cat ctx with
  | error e => simp [Logger.message, hf] at hfmt
  | ok f =>
    simp only [Logger.message, hf, Except.ok.injEq] at hfmt
    refine ⟨?_, ?_, ?_⟩
    · rw [← hfmt]
    · simp [Logger.error, Logger.log, Logger.message, hf, Logger.logMessage,
        Logger._log, ← hfmt, hgate]
    · simp [Logger.error, Logger.log, Logger.message, hf, Logger.logMessage,
        Logger._log, ← hfmt, hgate]

/-- C3 witness: on the default state the gate accepts ERROR; with the
flag unset the call returns the record without raising, with the flag set
it raises the raw message after the write. -/
theorem error_throw_flag_spec_witness :
    Logger.message defaultState none LoggerOptionDefaults "x" .ERROR none 0 =
      .ok (errorWitnessRecord) ∧
    Logger.error ⟨none⟩ defaultState true none LoggerOptionDefaults "x"
        false none 0 =
      ⟨[(.error, errorWitnessRecord.formatted)],
        .returned (some errorWitnessRecord)⟩ ∧
    Logger.error ⟨none⟩ defaultState true none LoggerOptionDefaults "x"
        true none 0 =
      ⟨[(.error, errorWitnessRecord.formatted)], .threw (.err "x")⟩ :=
  ⟨rfl,
    (error_throw_flag_spec ⟨none⟩ defaultState true none LoggerOptionDefaults
      "x" none 0 errorWitnessRecord rfl rfl).2.1,
    (error_throw_flag_spec ⟨none⟩ defaultState true none LoggerOptionDefaults
      "x" none 0 errorWitnessRecord rfl rfl).2.2⟩

/-- C9 counterexample: with alignment categories `["ab"]` configured and
an instance category `"abcdef"` longer than every alignment category, the
pad count is negative and rendering raises a `RangeError` instead of
returning a string. -/
theorem formatMessage_alignment_counterexample :
    Logger.formatMessage ⟨.DEBUG, .op .GREATER_OR_EQUAL, some ["ab"]⟩
      LoggerOptionDefaults .DEBUG "x" 0 (some "abcdef") none =
      .error .rangeError :=
  rfl

/-- C9 amended: serialization (`formatValue`) is total by construction;
rendering (`formatMessage`) completes and returns a string whenever the
alignment feature cannot produce a negative pad count — that is, whenever
no non-empty alignment list is configured, or the (truthy) category is no
longer than the longest alignment category. A longer category makes the
negative `repeat` count raise a `RangeError`. -/
theorem formatMessage_total (st : GlobalState) (opts : ResolvedOptions)
    (level : LogLevel) (msg : String) (date : Nat) (cat : Option String)
    (ctx : Option JSValue)
    (h : (st.alignmentCategories.getD []).length > 0 →
      jsOptStrTruthy cat = true →
      ((cat.map String.length).getD 0 : Int) ≤
        (maxLength (st.alignmentCategories.getD []) : Int)) :
    (Logger.formatMessage st opts level msg date cat ctx).isOk = true := by
  have hpad : ∀ e, Logger.alignmentPad st cat ≠ .error e := by
    intro e
    unfold Logger.alignmentPad strRepeat
    split
    · split
      · next hguard htruthy =>
        have hle := h hguard htruthy
        rw [if_neg (by omega)]
        intro hc
        exact Except.noConfusion hc
      · next htruthy =>
        have hlen : (cat.map String.length).getD 0 = 0 :=
          falsy_category_len (by simpa using htruthy)
        rw [if_neg (by omega)]
        intro hc
        exact Except.noConfusion hc
    · intro hc
      exact Except.noConfusion hc
  unfold Logger.formatMessage
  cases hp : Logger.alignmentPad st cat with
  | error e => exact absurd hp (hpad e)
  | ok pad => rfl

/-- C9 amended witness: alignment categories `["ab", "xyz"]` with
category `"ab"` render successfully. -/
theorem formatMessage_total_witness :
    (Logger.formatMessage ⟨.DEBUG, .op .GREATER_OR_EQUAL, some ["ab", "xyz"]⟩
      LoggerOptionDefaults .INFO "hello" 0 (some "ab") none).isOk = true :=
  formatMessage_total ⟨.DEBUG, .op .GREATER_OR_EQUAL, some ["ab", "xyz"]⟩
    LoggerOptionDefaults .INFO "hello" 0 (some "ab") none (by decide)

/-- C10: an empty keyed mapping renders compactly as `"\x7b \x7d"` (one inner
space) while an empty sequence renders as `"[]"` (no inner space); in
indented mode at depth 1 they render as `"\x7b\n\x7d"` and `"[\n]"`. -/
theorem empty_container_serialization :
    Logger.formatValue (.obj []) true 1 = "\x7b \x7d" ∧
    Logger.formatValue (.arr []) true 1 = "[]" ∧
    Logger.formatValue (.obj []) false 1 = "\x7b\n\x7d" ∧
    Logger.formatValue (.arr []) false 1 = "[\n]" := by
  refine ⟨?_, ?_, ?_, ?_⟩ <;>
    simp [Logger.formatValue, Logger.formatObjectValue, Logger.formatArrayValue,
      Logger.objPairsCompact, Logger.arrElemsCompact, Logger.objPairsIndented,
      Logger.arrElemsIndented, Logger.bracketIndent]

end DenoLogger
